import Mathlib

/-!
Verification of the graphify-backend HTTP service (Express + MongoDB).

The source is a single server file exposing:
  * POST   /api/conversations            (save: validated upsert keyed by sessionId)
  * GET    /api/conversations/:sessionId (load: point lookup, null when absent)
  * DELETE /api/conversations/:sessionId (remove: deleteOne, reports deletedCount)
  * POST   /api/users                    (user-profile upsert keyed by sub-or-email)
  * POST   /api/groq/chat                (proxy to an external completion API)

We shallowly embed the JavaScript data values (JSON plus `undefined`, with JS
truthiness and `typeof`), model each MongoDB collection as a list of documents
with Mongo updateOne-upsert / findOne / deleteOne semantics, and embed each
request handler as a pure function from the destructured request values and
the store state to a response value and the new store state.  Timestamps
(`new Date()`) are passed in explicitly as a `now : Nat` parameter.
-/

namespace Graphify

mutual
/-- JavaScript values as seen by the handlers: JSON values plus `undefined`.
Numbers are modelled as rationals (the handlers never rely on float rounding
or NaN).  Arrays and objects are mutual inductives so that decidable equality
can be derived. -/
inductive JValue where
  | undefined
  | null
  | bool (b : Bool)
  | num (q : ℚ)
  | str (s : String)
  | arr (xs : JArr)
  | obj (fields : JObj)
  deriving DecidableEq
inductive JArr where
  | nil
  | cons (v : JValue) (rest : JArr)
  deriving DecidableEq
inductive JObj where
  | nil
  | cons (k : String) (v : JValue) (rest : JObj)
  deriving DecidableEq
end

/-- JS truthiness: `undefined`, `null`, `false`, `0`, and `""` are falsy;
every other value (including empty arrays and empty objects) is truthy. -/
def truthy : JValue → Bool
  | .undefined => false
  | .null => false
  | .bool b => b
  | .num q => q != 0
  | .str s => s != ""
  | .arr _ => true
  | .obj _ => true

/-- JS `typeof`: note `typeof null` and `typeof` of arrays are both
the string "object". -/
def jsTypeof : JValue → String
  | .undefined => "undefined"
  | .null => "object"
  | .bool _ => "boolean"
  | .num _ => "number"
  | .str _ => "string"
  | .arr _ => "object"
  | .obj _ => "object"

/-- Property lookup in an object: first binding wins (each object literal the
handlers build binds every key once), missing key yields `undefined`. -/
def JObj.get : JObj → String → JValue
  | .nil, _ => .undefined
  | .cons k v rest, key => if k = key then v else rest.get key

/-- JS property access `v[key]` as used by the handlers (destructuring a
record field): yields `undefined` on every non-object value. -/
def jsGet : JValue → String → JValue
  | .obj fields, key => fields.get key
  | _, _ => .undefined

/-- `Array.isArray(v) && v.length > 0`: the check guarding the Groq proxy is
`!Array.isArray(messages) || messages.length === 0`. -/
def isNonEmptyArray : JValue → Bool
  | .arr (.cons _ _) => true
  | _ => false

/-- JS `String.prototype.trim`: strip whitespace from both ends.  (Defined
over the character list so that it evaluates by kernel reduction; it agrees
with the library trim on the ASCII whitespace relevant here.) -/
def jsTrim (s : String) : String :=
  ⟨((s.data.dropWhile Char.isWhitespace).reverse.dropWhile Char.isWhitespace).reverse⟩

/-- JS string test used by `validateUserPayload`:
`typeof v === 'string' && v.trim().length > 0`. -/
def isNonBlankString : JValue → Bool
  | .str s => jsTrim s != ""
  | _ => false

/-- `typeof v === 'string'`. -/
def isStringVal : JValue → Bool
  | .str _ => true
  | _ => false

/-- `typeof v === 'boolean'`. -/
def isBoolVal : JValue → Bool
  | .bool _ => true
  | _ => false

/-- JS nullish coalescing `v ?? dflt`: `undefined` and `null` fall back to
the default, every other value (including `0` and `""`) is kept. -/
def nullishOr (v dflt : JValue) : JValue :=
  match v with
  | .undefined => dflt
  | .null => dflt
  | _ => v

/-! ## Generic keyed document store (model of MongoDB collection operations)

A collection is a list of documents.  `updateOne` with `upsert: true` updates
the first document matching the filter, or inserts a fresh document when none
matches; `findOne` returns the first match; `deleteOne` removes the first
match and reports how many documents (0 or 1) were deleted. -/

/-- Mongo `updateOne(filter, update, {upsert: true})`: apply `upd` to the
first document satisfying `p`; when no document matches, append the fresh
document `new`. -/
def upsertFirst {α : Type} (p : α → Bool) (upd : α → α) (new : α) : List α → List α
  | [] => [new]
  | a :: as => if p a then upd a :: as else a :: upsertFirst p upd new as

/-- Mongo `deleteOne(filter)`: remove the first document satisfying `p`. -/
def deleteFirst {α : Type} (p : α → Bool) : List α → List α
  | [] => []
  | a :: as => if p a then as else a :: deleteFirst p as

/-! ## Conversation collection -/

/-- A document of the `conversations` collection: the filter key `sessionId`,
the payload `messages`, and the two timestamps managed by the upsert. -/
structure ConvDoc where
  sessionId : JValue
  messages : JValue
  createdAt : Nat
  updatedAt : Nat
  deriving DecidableEq

/-- The `conversations` collection state. -/
abbrev ConvStore := List ConvDoc

/-- The upsert performed by POST /api/conversations:
`$set: {messages, updatedAt: now}`, `$setOnInsert: {createdAt: now}`,
filter `{sessionId}`, `upsert: true`. -/
def conversationsUpdateOne (key msgs : JValue) (now : Nat) (docs : ConvStore) : ConvStore :=
  upsertFirst (fun d => d.sessionId == key)
    (fun d => { d with messages := msgs, updatedAt := now })
    ⟨key, msgs, now, now⟩ docs

/-- `conversations.findOne({sessionId})`. -/
def conversationsFindOne (key : JValue) (docs : ConvStore) : Option ConvDoc :=
  docs.find? (fun d => d.sessionId == key)

/-- `conversations.deleteOne({sessionId})`: the new collection state together
with `deletedCount`. -/
def conversationsDeleteOne (key : JValue) (docs : ConvStore) : ConvStore × Nat :=
  (deleteFirst (fun d => d.sessionId == key) docs,
   if docs.any (fun d => d.sessionId == key) then 1 else 0)

/-! ## Conversation handlers -/

/-- Response of POST /api/conversations: HTTP 400 with
"sessionId and messages are required", or 200 `{success:true}`. -/
inductive SaveConvResult where
  | invalidPayload
  | saved
  deriving DecidableEq

/-- POST /api/conversations: destructures `sessionId` and `messages` from the
body, rejects when `!sessionId || !messages`, otherwise upserts. -/
def saveConversation (sessionId messages : JValue) (now : Nat) (docs : ConvStore) :
    SaveConvResult × ConvStore :=
  if !truthy sessionId || !truthy messages then
    (.invalidPayload, docs)
  else
    (.saved, conversationsUpdateOne sessionId messages now docs)

/-- Response of GET /api/conversations/:sessionId: HTTP 400, or 200 with the
stored `messages` (the JSON `null` when no document exists). -/
inductive LoadConvResult where
  | invalidPayload
  | ok (messages : JValue)
  deriving DecidableEq

/-- GET /api/conversations/:sessionId: the route parameter is a string;
`!sessionId` rejects the empty string; otherwise a point lookup, answering
`messages: null` when no document exists.  The store is returned unchanged:
the handler performs no write. -/
def loadConversation (sessionId : String) (docs : ConvStore) : LoadConvResult × ConvStore :=
  if sessionId = "" then
    (.invalidPayload, docs)
  else
    match conversationsFindOne (.str sessionId) docs with
    | some c => (.ok c.messages, docs)
    | none => (.ok .null, docs)

/-- Response of DELETE /api/conversations/:sessionId: HTTP 400, or 200 with
`deleted: deletedCount`. -/
inductive DeleteConvResult where
  | invalidPayload
  | ok (deleted : Nat)
  deriving DecidableEq

/-- DELETE /api/conversations/:sessionId: rejects the empty route parameter,
otherwise `deleteOne` and report `deletedCount`. -/
def deleteConversation (sessionId : String) (docs : ConvStore) : DeleteConvResult × ConvStore :=
  if sessionId = "" then
    (.invalidPayload, docs)
  else
    let r := conversationsDeleteOne (.str sessionId) docs
    (.ok r.2, r.1)

/-! ## User-profile collection and handler -/

/-- `validateUserPayload(user)` translated from the source:
reject unless `user` is truthy and `typeof user === 'object'`;
`email` and `name` must be strings with non-empty trim; among
`sub, picture, hd, locale, phone` every truthy value must be a string
(the code filters with `Boolean` and then checks `typeof === 'string'`);
`emailVerified`, when not `undefined`, must be a boolean.  The early-return
chain of the source is rendered as one short-circuit conjunction; the final
guard `emailVerified !== undefined && typeof emailVerified !== 'boolean'`
appears in negated form. -/
def validateUserPayload (user : JValue) : Bool :=
  truthy user && jsTypeof user == "object" &&
  isNonBlankString (jsGet user "email") &&
  isNonBlankString (jsGet user "name") &&
  ([jsGet user "sub", jsGet user "picture", jsGet user "hd",
    jsGet user "locale", jsGet user "phone"].filter truthy).all isStringVal &&
  (jsGet user "emailVerified" == .undefined || isBoolVal (jsGet user "emailVerified"))

/-- `const key = user.sub || user.email;` — JS `||` yields the first truthy
operand, else the second. -/
def userKey (user : JValue) : JValue :=
  if truthy (jsGet user "sub") then jsGet user "sub" else jsGet user "email"

/-- A document of the `users` collection: the fields written by the
POST /api/users upsert.  Omitted payload attributes are stored as the
absent value (the driver serializes `undefined`; either way the previous
stored value is replaced, which is what the claims are about). -/
structure UserDoc where
  key : JValue
  sub : JValue
  email : JValue
  name : JValue
  picture : JValue
  emailVerified : JValue
  hd : JValue
  locale : JValue
  phone : JValue
  lastLoginAt : Nat
  createdAt : Nat
  deriving DecidableEq

/-- The `users` collection state. -/
abbrev UserStore := List UserDoc

/-- The `$set` document of the users upsert: all eight attribute fields plus
`key` and `lastLoginAt` are written unconditionally. -/
def setUserFields (user k : JValue) (now : Nat) (d : UserDoc) : UserDoc :=
  { d with
    key := k
    sub := jsGet user "sub"
    email := jsGet user "email"
    name := jsGet user "name"
    picture := jsGet user "picture"
    emailVerified := jsGet user "emailVerified"
    hd := jsGet user "hd"
    locale := jsGet user "locale"
    phone := jsGet user "phone"
    lastLoginAt := now }

/-- The fresh document inserted when no user with this key exists:
the `$set` fields together with `$setOnInsert: {createdAt: now}`. -/
def newUserDoc (user k : JValue) (now : Nat) : UserDoc :=
  ⟨k, jsGet user "sub", jsGet user "email", jsGet user "name", jsGet user "picture",
   jsGet user "emailVerified", jsGet user "hd", jsGet user "locale", jsGet user "phone",
   now, now⟩

/-- The upsert of POST /api/users: filter `{key}`, `$set` of all attribute
fields plus `lastLoginAt: now`, `$setOnInsert: {createdAt: now}`. -/
def usersUpdateOne (user k : JValue) (now : Nat) (us : UserStore) : UserStore :=
  upsertFirst (fun d => d.key == k) (setUserFields user k now) (newUserDoc user k now) us

/-- `users.findOne({key})` (observation on the model state; the service
exposes no read endpoint for users). -/
def usersFindOne (k : JValue) (us : UserStore) : Option UserDoc :=
  us.find? (fun d => d.key == k)

/-- Response of POST /api/users. -/
inductive SaveUserResult where
  | invalidPayload
  | saved
  deriving DecidableEq

/-- POST /api/users: validate the payload, compute the key, upsert. -/
def saveUser (user : JValue) (now : Nat) (us : UserStore) : SaveUserResult × UserStore :=
  if !validateUserPayload user then
    (.invalidPayload, us)
  else
    (.saved, usersUpdateOne user (userKey user) now us)

/-! ## Groq completion proxy -/

/-- The JSON body forwarded to the external completion API by the proxy. -/
structure GroqRequest where
  model : String
  messages : JValue
  temperature : JValue
  max_tokens : JValue
  response_format : Option JValue
  deriving DecidableEq

/-- Outcome of POST /api/groq/chat up to the outward call: 503 when the key
is unconfigured, 400 when `messages` is not a non-empty array, otherwise the
request forwarded upstream (whose response the handler then relays). -/
inductive GroqOutcome where
  | unconfigured
  | badMessages
  | forwarded (r : GroqRequest)
  deriving DecidableEq

/-- POST /api/groq/chat: `!GROQ_API_KEY` yields 503;
`!Array.isArray(messages) || messages.length === 0` yields 400; otherwise
the body is forwarded with the fixed model identifier,
`temperature: temperature ?? 0.3`, `max_tokens: maxTokens ?? 512`, and a
`response_format` entry only when `responseFormat` is truthy. -/
def groqChat (apiKey messages responseFormat maxTokens temperature : JValue) : GroqOutcome :=
  if !truthy apiKey then .unconfigured
  else if !isNonEmptyArray messages then .badMessages
  else .forwarded
    { model := "llama-3.1-8b-instant"
      messages := messages
      temperature := nullishOr temperature (.num (3/10))
      max_tokens := nullishOr maxTokens (.num 512)
      response_format := if truthy responseFormat then some responseFormat else none }

/-- Pairwise-distinct session keys: the relational form of the invariant
"at most one conversation document per sessionId". -/
def ConvKeysDistinct (docs : ConvStore) : Prop :=
  docs.Pairwise (fun a b => a.sessionId ≠ b.sessionId)

/-- At most one document of the collection matches any given session key. -/
def atMostOnePerSession (docs : ConvStore) : Prop :=
  ∀ k : JValue, (docs.filter (fun d => d.sessionId == k)).length ≤ 1

/-! ## Sample values used in concrete instantiations -/

/-- A minimal valid user payload: email "a" and name "N", all optional
fields omitted. -/
def sampleUserPayload : JValue :=
  .obj (.cons "email" (.str "a") (.cons "name" (.str "N") .nil))

/-- A users collection holding one document under key "a" that carries a
stored picture. -/
def sampleUserStore : UserStore :=
  [⟨.str "a", .undefined, .str "a", .str "N", .str "p", .undefined, .undefined, .undefined, .undefined, 5, 5⟩]

/-! ## Store lemmas -/

/-- Looking up the filter key after an upsert finds the updated document when
one matched before, and the freshly inserted document otherwise. -/
theorem find?_upsertFirst {α : Type} (p : α → Bool) (upd : α → α) (new : α)
    (hupd : ∀ a, p a = true → p (upd a) = true) (hnew : p new = true) (l : List α) :
    (upsertFirst p upd new l).find? p = some ((l.find? p).elim new upd) := by
  induction l with
  | nil => simp [upsertFirst, hnew]
  | cons a as ih =>
    by_cases h : p a
    · simp [upsertFirst, h, hupd a h]
    · simp only [Bool.not_eq_true] at h
      simp [upsertFirst, h, ih]

/-- Every element of an upsert result is the new document, an untouched old
element, or the update applied to a matching old element. -/
theorem mem_upsertFirst {α : Type} {p : α → Bool} {upd : α → α} {new b : α} {l : List α}
    (hb : b ∈ upsertFirst p upd new l) :
    b = new ∨ ∃ a ∈ l, b = a ∨ (p a = true ∧ b = upd a) := by
  induction l with
  | nil => simp [upsertFirst] at hb; exact Or.inl hb
  | cons a as ih =>
    by_cases h : p a
    · simp only [upsertFirst, h, if_pos] at hb
      rcases List.mem_cons.mp hb with hb | hb
      · exact Or.inr ⟨a, List.mem_cons_self a as, Or.inr ⟨h, hb⟩⟩
      · exact Or.inr ⟨b, List.mem_cons_of_mem a hb, Or.inl rfl⟩
    · simp only [upsertFirst, h, if_neg, Bool.not_eq_true] at hb
      rcases List.mem_cons.mp hb with hb | hb
      · exact Or.inr ⟨a, List.mem_cons_self a as, Or.inl hb⟩
      · rcases ih hb with hnew' | ⟨a', ha', h'⟩
        · exact Or.inl hnew'
        · exact Or.inr ⟨a', List.mem_cons_of_mem a ha', h'⟩

/-- An upsert keyed by `k` preserves pairwise-distinctness of keys, provided
the update leaves the key of a matching document unchanged and the fresh
document carries key `k`. -/
theorem pairwise_upsertFirst {α : Type} (keyOf : α → JValue) (k : JValue)
    (upd : α → α) (new : α)
    (hupd : ∀ a, keyOf a = k → keyOf (upd a) = keyOf a) (hnew : keyOf new = k)
    (l : List α) (hl : l.Pairwise (fun x y => keyOf x ≠ keyOf y)) :
    (upsertFirst (fun a => keyOf a == k) upd new l).Pairwise
      (fun x y => keyOf x ≠ keyOf y) := by
  induction l with
  | nil => simp [upsertFirst]
  | cons a as ih =>
    rcases List.pairwise_cons.mp hl with ⟨ha, has⟩
    by_cases h : keyOf a = k
    · simp only [upsertFirst, h, beq_self_eq_true, if_pos]
      exact List.pairwise_cons.mpr ⟨fun b hb => (hupd a h) ▸ ha b hb, has⟩
    · have hba : (keyOf a == k) = false := beq_eq_false_iff_ne.mpr h
      simp only [upsertFirst, hba, Bool.false_eq_true, if_neg, not_false_iff]
      refine List.pairwise_cons.mpr ⟨fun b hb => ?_, ih has⟩
      rcases mem_upsertFirst hb with hbnew | ⟨a', ha', h' | ⟨hpa', h'⟩⟩
      · rw [hbnew, hnew]; exact h
      · rw [h']; exact ha a' ha'
      · rw [h', hupd a' (by simpa using hpa')]; exact ha a' ha'

/-- `deleteFirst` yields a sublist of the input. -/
theorem deleteFirst_sublist {α : Type} (p : α → Bool) (l : List α) :
    (deleteFirst p l).Sublist l := by
  induction l with
  | nil => simp [deleteFirst]
  | cons a as ih =>
    by_cases h : p a
    · simp [deleteFirst, h, List.sublist_cons_self a as]
    · simp only [Bool.not_eq_true] at h
      simpa [deleteFirst, h] using ih.cons₂ a

/-- `deleteFirst` preserves pairwise-distinctness of keys. -/
theorem pairwise_deleteFirst {α : Type} (p : α → Bool) {R : α → α → Prop}
    {l : List α} (hl : l.Pairwise R) : (deleteFirst p l).Pairwise R :=
  hl.sublist (deleteFirst_sublist p l)

/-- With pairwise-distinct keys, deleting the first match leaves no match. -/
theorem find?_deleteFirst {α : Type} (keyOf : α → JValue) (k : JValue)
    (l : List α) (hl : l.Pairwise (fun x y => keyOf x ≠ keyOf y)) :
    (deleteFirst (fun a => keyOf a == k) l).find? (fun a => keyOf a == k) = none := by
  induction l with
  | nil => simp [deleteFirst]
  | cons a as ih =>
    rcases List.pairwise_cons.mp hl with ⟨ha, has⟩
    by_cases h : keyOf a = k
    · simp only [deleteFirst, h, beq_self_eq_true, if_pos]
      refine List.find?_eq_none.mpr fun b hb => ?_
      have : keyOf a ≠ keyOf b := ha b hb
      simp only [beq_eq_false_iff_ne, ne_eq, beq_iff_eq]
      intro hbk
      exact this (by rw [hbk, h])
    · have hba : (keyOf a == k) = false := beq_eq_false_iff_ne.mpr h
      simp only [deleteFirst, hba, Bool.false_eq_true, if_neg, not_false_iff]
      simp [List.find?_cons, hba, ih has]

/-- A match exists exactly when `findOne` succeeds. -/
theorem any_eq_isSome_find? {α : Type} (p : α → Bool) (l : List α) :
    l.any p = (l.find? p).isSome := by
  induction l with
  | nil => simp
  | cons a as ih =>
    by_cases h : p a
    · simp [List.find?_cons, h]
    · simp only [Bool.not_eq_true] at h
      simp [List.find?_cons, h, ih]

/-- The updated or inserted document found under the save key: `messages` is
the newly saved value, `updatedAt` is the write time, and `createdAt` is the
pre-existing creation time when a document already existed, else the write
time. -/
theorem conversationsFindOne_updateOne (key msgs : JValue) (now : Nat) (docs : ConvStore) :
    conversationsFindOne key (conversationsUpdateOne key msgs now docs) =
      some ⟨key, msgs, (conversationsFindOne key docs).elim now ConvDoc.createdAt, now⟩ := by
  unfold conversationsFindOne conversationsUpdateOne
  rw [find?_upsertFirst _ _ _ (fun a ha => by simpa using ha) (by simp) docs]
  cases hfind : docs.find? (fun d => d.sessionId == key) with
  | none => simp
  | some d =>
    have hd : d.sessionId = key := by simpa using List.find?_some hfind
    simp [← hd]

/-- The counting form and the pairwise form of the uniqueness invariant
agree. -/
theorem atMostOnePerSession_iff (docs : ConvStore) :
    atMostOnePerSession docs ↔ ConvKeysDistinct docs := by
  induction docs with
  | nil => simp [atMostOnePerSession, ConvKeysDistinct]
  | cons d ds ih =>
    constructor
    · intro h
      refine List.pairwise_cons.mpr ⟨fun b hb heq => ?_, ih.mp fun k => ?_⟩
      · have hk := h d.sessionId
        have hpos : (d.sessionId == d.sessionId) = true := by simp
        rw [List.filter_cons, if_pos hpos, List.length_cons] at hk
        have hbk : (b.sessionId == d.sessionId) = true := by simp [heq]
        have hmem : b ∈ ds.filter (fun x => x.sessionId == d.sessionId) :=
          List.mem_filter.mpr ⟨hb, hbk⟩
        have hlen : 0 < (ds.filter (fun x => x.sessionId == d.sessionId)).length :=
          List.length_pos.mpr (List.ne_nil_of_mem hmem)
        omega
      · have hk := h k
        have hmono : (ds.filter (fun x => x.sessionId == k)).length ≤
            ((d :: ds).filter (fun x => x.sessionId == k)).length := by
          rw [List.filter_cons]
          split
          · rw [List.length_cons]; omega
          · exact le_refl _
        exact le_trans hmono hk
    · intro h k
      rcases List.pairwise_cons.mp h with ⟨ha, has⟩
      rcases hcase : (d.sessionId == k) with _ | _
      · simpa [List.filter_cons, hcase] using ih.mpr has k
      · have hnil : ds.filter (fun x => x.sessionId == k) = [] := by
          refine List.filter_eq_nil_iff.mpr fun b hb => ?_
          have : d.sessionId ≠ b.sessionId := ha b hb
          simp only [beq_iff_eq] at hcase ⊢
          intro hbk
          exact this (by rw [hbk, hcase])
        simp [List.filter_cons, hcase, hnil]

/-- The conversation upsert preserves pairwise-distinctness of session keys
(it never duplicates a key). -/
theorem convKeysDistinct_updateOne (key msgs : JValue) (now : Nat) (docs : ConvStore)
    (h : ConvKeysDistinct docs) :
    ConvKeysDistinct (conversationsUpdateOne key msgs now docs) := by
  unfold ConvKeysDistinct at h ⊢
  unfold conversationsUpdateOne
  exact pairwise_upsertFirst ConvDoc.sessionId key
    (fun d => { d with messages := msgs, updatedAt := now })
    ⟨key, msgs, now, now⟩ (fun a _ => rfl) rfl docs h

/-- A conversation save preserves pairwise-distinctness of session keys. -/
theorem convKeysDistinct_save (sid msgs : JValue) (now : Nat) (docs : ConvStore)
    (h : ConvKeysDistinct docs) :
    ConvKeysDistinct (saveConversation sid msgs now docs).2 := by
  unfold saveConversation
  by_cases hv : (!truthy sid || !truthy msgs) = true
  · simpa [hv] using h
  · simp only [hv, if_neg, not_false_iff]
    exact convKeysDistinct_updateOne sid msgs now docs h

/-- A conversation delete preserves pairwise-distinctness of session keys. -/
theorem convKeysDistinct_delete (s : String) (docs : ConvStore)
    (h : ConvKeysDistinct docs) :
    ConvKeysDistinct (deleteConversation s docs).2 := by
  by_cases hs : s = ""
  · simpa [deleteConversation, hs] using h
  · simp only [deleteConversation, hs, if_neg, not_false_iff, conversationsDeleteOne]
    exact pairwise_deleteFirst _ h

/-- Deleting with a filter nothing satisfies leaves the collection
unchanged. -/
theorem deleteFirst_of_none {α : Type} (p : α → Bool) (l : List α)
    (h : ∀ a ∈ l, p a = false) : deleteFirst p l = l := by
  induction l with
  | nil => rfl
  | cons a as ih =>
    have ha := h a (List.mem_cons_self a as)
    simp [deleteFirst, ha, ih fun b hb => h b (List.mem_cons_of_mem a hb)]

/-- The load handler performs no store write. -/
theorem loadConversation_snd (s : String) (docs : ConvStore) :
    (loadConversation s docs).2 = docs := by
  unfold loadConversation
  split
  · rfl
  · split <;> rfl

/-- The user found under the save key after the users upsert: every attribute
field holds the value destructured from the payload (absent attributes
included), `lastLoginAt` is the write time, and `createdAt` is preserved from
the pre-existing document when one existed, else the write time. -/
theorem usersFindOne_updateOne (user k : JValue) (now : Nat) (us : UserStore) :
    usersFindOne k (usersUpdateOne user k now us) =
      some ⟨k, jsGet user "sub", jsGet user "email", jsGet user "name", jsGet user "picture",
            jsGet user "emailVerified", jsGet user "hd", jsGet user "locale", jsGet user "phone",
            now, (usersFindOne k us).elim now UserDoc.createdAt⟩ := by
  unfold usersFindOne usersUpdateOne
  rw [find?_upsertFirst _ _ _ (fun a _ => by simp [setUserFields]) (by simp [newUserDoc]) us]
  cases hfind : us.find? (fun d => d.key == k) with
  | none => simp [newUserDoc]
  | some d => simp [setUserFields]

/-! ## Claims -/

/-- C1: for every valid pair of sessionId and messages that passes the
conversation-payload validation, saving and then loading the same sessionId,
with no intervening write, answers success with exactly the last-saved
messages value. -/
theorem save_then_load_returns_last_saved (s : String) (msgs : JValue) (now : Nat)
    (docs : ConvStore) (hs : s ≠ "") (hm : truthy msgs = true) :
    (loadConversation s (saveConversation (.str s) msgs now docs).2).1 = .ok msgs := by
  have hsid : truthy (.str s) = true := by simp [truthy, hs]
  have h2 : (saveConversation (.str s) msgs now docs).2 =
      conversationsUpdateOne (.str s) msgs now docs := by
    simp [saveConversation, hsid, hm]
  rw [h2]
  simp [loadConversation, hs, conversationsFindOne_updateOne]

/-- Witness for C1 at the concrete scenario of the spec: save one user
message under "s1" into the empty store, then load "s1". -/
theorem save_then_load_returns_last_saved_witness :
    (loadConversation "s1" (saveConversation (.str "s1")
        (.arr (.cons (.obj (.cons "role" (.str "user") (.cons "text" (.str "hi") .nil))) .nil))
        0 []).2).1 =
      .ok (.arr (.cons (.obj (.cons "role" (.str "user") (.cons "text" (.str "hi") .nil))) .nil)) :=
  save_then_load_returns_last_saved "s1"
    (.arr (.cons (.obj (.cons "role" (.str "user") (.cons "text" (.str "hi") .nil))) .nil))
    0 [] (by decide) (by decide)

/-- C2 counterexample: the number 0 is a present messages value (it is
neither null nor undefined), yet the save handler rejects it with
InvalidPayload and performs no upsert, because the check `!messages` tests
JS falsiness, not presence. -/
theorem saveConversation_rejects_present_falsy_messages :
    saveConversation (.str "s1") (.num 0) 0 [] = (.invalidPayload, [])
    ∧ JValue.num 0 ≠ .null ∧ JValue.num 0 ≠ .undefined :=
  ⟨by decide, by decide, by decide⟩

/-- C2 (amended): conversation-payload validation fails exactly when
sessionId or messages is JS-falsy (undefined, null, false, 0, or the empty
string); every truthy messages value is accepted — including the empty
array, which is truthy — and the save then proceeds to the store upsert. -/
theorem conversationPayload_validation_characterization (sid msgs : JValue)
    (now : Nat) (docs : ConvStore) :
    ((saveConversation sid msgs now docs).1 = .invalidPayload ↔
      (truthy sid = false ∨ truthy msgs = false))
    ∧ (truthy sid = true → truthy msgs = true →
        saveConversation sid msgs now docs =
          (.saved, conversationsUpdateOne sid msgs now docs))
    ∧ truthy (.arr .nil) = true := by
  refine ⟨?_, ?_, rfl⟩
  · by_cases h1 : truthy sid <;> by_cases h2 : truthy msgs <;>
      simp [saveConversation, h1, h2]
  · intro h1 h2
    simp [saveConversation, h1, h2]

/-- Witness for the amended C2: a truthy sessionId with an empty-array
messages value is accepted and reaches the upsert. -/
theorem conversationPayload_validation_characterization_witness :
    saveConversation (.str "s") (.arr .nil) 0 [] =
      (.saved, conversationsUpdateOne (.str "s") (.arr .nil) 0 []) :=
  (conversationPayload_validation_characterization (.str "s") (.arr .nil) 0 []).2.1 rfl rfl

/-- C4: after every accepted save, the document stored under the sessionId
has the new messages and `updatedAt` equal to the write time, while
`createdAt` is the write time exactly when no document existed before (the
inserting save) and is the pre-existing `createdAt` on every subsequent
save. -/
theorem createdAt_set_once_updatedAt_refreshed (sid msgs : JValue) (now : Nat)
    (docs : ConvStore) (h1 : truthy sid = true) (h2 : truthy msgs = true) :
    conversationsFindOne sid (saveConversation sid msgs now docs).2 =
      some ⟨sid, msgs, (conversationsFindOne sid docs).elim now ConvDoc.createdAt, now⟩ := by
  simp [saveConversation, h1, h2, conversationsFindOne_updateOne]

/-- Witness for C4: a second save at time 7 over a document created at
time 5 keeps `createdAt = 5` and sets `updatedAt = 7`. -/
theorem createdAt_set_once_updatedAt_refreshed_witness :
    conversationsFindOne (.str "s1")
        (saveConversation (.str "s1") (.arr .nil) 7 [⟨.str "s1", .null, 5, 5⟩]).2 =
      some ⟨.str "s1", .arr .nil, 5, 7⟩ := by
  rw [createdAt_set_once_updatedAt_refreshed (.str "s1") (.arr .nil) 7
    [⟨.str "s1", .null, 5, 5⟩] (by decide) (by decide)]
  decide

/-- C5: a save with missing (undefined) sessionId or missing messages fails
with InvalidPayload and leaves the store state exactly as it was. -/
theorem save_missing_fields_no_write (sid msgs : JValue) (now : Nat)
    (docs : ConvStore) (h : sid = .undefined ∨ msgs = .undefined) :
    saveConversation sid msgs now docs = (.invalidPayload, docs) := by
  rcases h with rfl | rfl <;> simp [saveConversation, truthy]

/-- Witness for C5: saving with an undefined sessionId over a non-empty
store fails and leaves the store unchanged. -/
theorem save_missing_fields_no_write_witness :
    saveConversation .undefined (.arr .nil) 3 [⟨.str "a", .null, 1, 1⟩] =
      (.invalidPayload, [⟨.str "a", .null, 1, 1⟩]) :=
  save_missing_fields_no_write .undefined (.arr .nil) 3 [⟨.str "a", .null, 1, 1⟩] (Or.inl rfl)

/-- C6: loading a sessionId for which no document exists answers success
with `messages = null`, a result distinct from the error result. -/
theorem load_absent_returns_null (s : String) (docs : ConvStore) (hs : s ≠ "")
    (habs : conversationsFindOne (.str s) docs = none) :
    (loadConversation s docs).1 = .ok .null
    ∧ LoadConvResult.ok .null ≠ .invalidPayload := by
  refine ⟨?_, by decide⟩
  simp [loadConversation, hs, habs]

/-- Witness for C6: loading "s1" from the empty store. -/
theorem load_absent_returns_null_witness :
    (loadConversation "s1" []).1 = .ok .null
    ∧ LoadConvResult.ok .null ≠ .invalidPayload :=
  load_absent_returns_null "s1" [] (by decide) rfl

/-- C3: user-payload validation rejects any payload in which one of sub,
picture, hd, locale, phone carries a truthy (present and non-empty)
non-string value, rejects any payload whose emailVerified is present
(not undefined) and not a boolean, and accepts a payload with non-blank
string email and name and all optional fields absent. -/
theorem userPayload_optional_field_validation :
    (∀ (u : JValue) (f : String), f ∈ ["sub", "picture", "hd", "locale", "phone"] →
        truthy (jsGet u f) = true → isStringVal (jsGet u f) = false →
        validateUserPayload u = false)
    ∧ (∀ u : JValue, jsGet u "emailVerified" ≠ .undefined →
        isBoolVal (jsGet u "emailVerified") = false → validateUserPayload u = false)
    ∧ (∀ e n : String, jsTrim e ≠ "" → jsTrim n ≠ "" →
        validateUserPayload (.obj (.cons "email" (.str e) (.cons "name" (.str n) .nil))) =
          true) := by
  refine ⟨?_, ?_, ?_⟩
  · intro u f hf ht hns
    cases hval : validateUserPayload u with
    | false => rfl
    | true =>
      exfalso
      simp only [validateUserPayload, Bool.and_eq_true] at hval
      have hall := hval.1.2
      have hmem : jsGet u f ∈ [jsGet u "sub", jsGet u "picture", jsGet u "hd",
          jsGet u "locale", jsGet u "phone"] := by
        simp only [List.mem_cons, List.not_mem_nil, or_false] at hf
        rcases hf with rfl | rfl | rfl | rfl | rfl <;> simp
      have hmemf := List.mem_filter.mpr ⟨hmem, ht⟩
      have := List.all_eq_true.mp hall _ hmemf
      rw [hns] at this
      exact Bool.false_ne_true this
  · intro u hev hnb
    cases hval : validateUserPayload u with
    | false => rfl
    | true =>
      exfalso
      simp only [validateUserPayload, Bool.and_eq_true] at hval
      have h6 := hval.2
      rw [Bool.or_eq_true] at h6
      rcases h6 with hl | hr
      · exact hev (by simpa using hl)
      · rw [hnb] at hr
        exact Bool.false_ne_true hr
  · intro e n he hn
    simp [validateUserPayload, jsGet, JObj.get, truthy, jsTypeof, isNonBlankString, he, hn]

/-- Witness for C3: a payload carrying the number 5 under sub is rejected. -/
theorem userPayload_optional_field_validation_witness :
    validateUserPayload (.obj (.cons "email" (.str "a") (.cons "name" (.str "N")
      (.cons "sub" (.num 5) .nil)))) = false :=
  userPayload_optional_field_validation.1
    (.obj (.cons "email" (.str "a") (.cons "name" (.str "N") (.cons "sub" (.num 5) .nil))))
    "sub" (by decide) (by decide) (by decide)

/-- C7: on a non-empty sessionId, remove always answers success with an
exact count; the count is 0 when no document exists (and the store is
untouched), and 1 immediately after an accepted save to that sessionId in a
duplicate-free store, after which a load answers `messages = null`. -/
theorem remove_reports_exact_deleted_count (s : String) (msgs : JValue) (now : Nat)
    (docs : ConvStore) (hs : s ≠ "") :
    (∃ n, (deleteConversation s docs).1 = .ok n)
    ∧ (conversationsFindOne (.str s) docs = none →
        deleteConversation s docs = (.ok 0, docs))
    ∧ (truthy msgs = true → atMostOnePerSession docs →
        (deleteConversation s (saveConversation (.str s) msgs now docs).2).1 = .ok 1
        ∧ (loadConversation s
            (deleteConversation s (saveConversation (.str s) msgs now docs).2).2).1 =
            .ok .null) := by
  refine ⟨⟨(conversationsDeleteOne (.str s) docs).2, by simp [deleteConversation, hs]⟩, ?_, ?_⟩
  · intro habs
    unfold conversationsFindOne at habs
    have hnone : ∀ d ∈ docs, (d.sessionId == JValue.str s) = false := by
      intro d hd
      simpa using List.find?_eq_none.mp habs d hd
    have hdel := deleteFirst_of_none (fun d => d.sessionId == JValue.str s) docs hnone
    have hany : docs.any (fun d => d.sessionId == JValue.str s) = false := by
      rw [any_eq_isSome_find?, habs]
      rfl
    simp [deleteConversation, conversationsDeleteOne, hs, hdel, hany]
  · intro hm hinv
    have hsid : truthy (.str s) = true := by simp [truthy, hs]
    have h2 : (saveConversation (.str s) msgs now docs).2 =
        conversationsUpdateOne (.str s) msgs now docs := by
      simp [saveConversation, hsid, hm]
    rw [h2]
    have hfind := conversationsFindOne_updateOne (.str s) msgs now docs
    unfold conversationsFindOne at hfind
    have hany : (conversationsUpdateOne (.str s) msgs now docs).any
        (fun d => d.sessionId == JValue.str s) = true := by
      rw [any_eq_isSome_find?, hfind]
      rfl
    have hdk : ConvKeysDistinct (conversationsUpdateOne (.str s) msgs now docs) :=
      convKeysDistinct_updateOne (.str s) msgs now docs
        ((atMostOnePerSession_iff docs).mp hinv)
    have hafter := find?_deleteFirst ConvDoc.sessionId (.str s)
      (conversationsUpdateOne (.str s) msgs now docs) hdk
    refine ⟨by simp [deleteConversation, conversationsDeleteOne, hs, hany], ?_⟩
    simp [deleteConversation, conversationsDeleteOne, hs, loadConversation,
      conversationsFindOne, hafter]

/-- Witness for C7: deleting "s1" right after saving it into the empty
store reports one deleted document and a subsequent load answers null. -/
theorem remove_reports_exact_deleted_count_witness :
    (deleteConversation "s1" (saveConversation (.str "s1") (.arr .nil) 0 []).2).1 = .ok 1
    ∧ (loadConversation "s1"
        (deleteConversation "s1" (saveConversation (.str "s1") (.arr .nil) 0 []).2).2).1 =
        .ok .null :=
  (remove_reports_exact_deleted_count "s1" (.arr .nil) 0 [] (by decide)).2.2 rfl
    (fun k => by simp)

/-- C8: at most one conversation document exists per sessionId — the
invariant holds for the empty store and is preserved by every save, load,
and remove. -/
theorem at_most_one_document_per_session :
    atMostOnePerSession ([] : ConvStore)
    ∧ (∀ (sid msgs : JValue) (now : Nat) (docs : ConvStore), atMostOnePerSession docs →
        atMostOnePerSession (saveConversation sid msgs now docs).2)
    ∧ (∀ (s : String) (docs : ConvStore), atMostOnePerSession docs →
        atMostOnePerSession (loadConversation s docs).2)
    ∧ (∀ (s : String) (docs : ConvStore), atMostOnePerSession docs →
        atMostOnePerSession (deleteConversation s docs).2) := by
  refine ⟨fun k => by simp, ?_, ?_, ?_⟩
  · intro sid msgs now docs h
    exact (atMostOnePerSession_iff _).mpr
      (convKeysDistinct_save sid msgs now docs ((atMostOnePerSession_iff _).mp h))
  · intro s docs h
    rw [loadConversation_snd]
    exact h
  · intro s docs h
    exact (atMostOnePerSession_iff _).mpr
      (convKeysDistinct_delete s docs ((atMostOnePerSession_iff _).mp h))

/-- Witness for C8: the invariant after one save into the empty store. -/
theorem at_most_one_document_per_session_witness :
    atMostOnePerSession (saveConversation (.str "a") (.num 1) 0 []).2 :=
  at_most_one_document_per_session.2.1 (.str "a") (.num 1) 0 [] (fun k => by simp)

/-- C9: the completion proxy answers 503 whenever the API key is
unconfigured (falsy), answers 400 when the key is configured but messages is
not a non-empty array, and with both overrides absent forwards the request
with the fixed model identifier, temperature 0.3 and max tokens 512. -/
theorem groq_proxy_gating_and_defaults (key messages responseFormat : JValue) :
    (∀ maxTokens temperature : JValue, truthy key = false →
        groqChat key messages responseFormat maxTokens temperature = .unconfigured)
    ∧ (∀ maxTokens temperature : JValue, truthy key = true →
        isNonEmptyArray messages = false →
        groqChat key messages responseFormat maxTokens temperature = .badMessages)
    ∧ (truthy key = true → isNonEmptyArray messages = true →
        groqChat key messages responseFormat .undefined .undefined =
          .forwarded { model := "llama-3.1-8b-instant", messages := messages,
                       temperature := .num (3/10), max_tokens := .num 512,
                       response_format := if truthy responseFormat then some responseFormat
                                          else none }) := by
  refine ⟨?_, ?_, ?_⟩
  · intro mt tp h
    simp [groqChat, h]
  · intro mt tp h1 h2
    simp [groqChat, h1, h2]
  · intro h1 h2
    simp [groqChat, h1, h2, nullishOr]

/-- Witness for C9: a configured key, a one-element messages array and no
overrides forward the defaulted request. -/
theorem groq_proxy_gating_and_defaults_witness :
    groqChat (.str "k") (.arr (.cons (.str "m") .nil)) .undefined .undefined .undefined =
      .forwarded { model := "llama-3.1-8b-instant",
                   messages := .arr (.cons (.str "m") .nil),
                   temperature := .num (3/10), max_tokens := .num 512,
                   response_format := none } := by
  have h := (groq_proxy_gating_and_defaults (.str "k")
    (.arr (.cons (.str "m") .nil)) .undefined).2.2 rfl rfl
  simpa [truthy] using h

/-- C10: every accepted user save answers success and stores, under the
computed key, a document whose eight attribute fields all equal the values
destructured from this payload (absent attributes included, so an earlier
value never survives an omission) with `lastLoginAt` set to the write time
and `createdAt` preserved only from a pre-existing document. -/
theorem user_save_overwrites_all_fields (u : JValue) (now : Nat) (us : UserStore)
    (h : validateUserPayload u = true) :
    (saveUser u now us).1 = .saved
    ∧ usersFindOne (userKey u) (saveUser u now us).2 =
      some ⟨userKey u, jsGet u "sub", jsGet u "email", jsGet u "name", jsGet u "picture",
            jsGet u "emailVerified", jsGet u "hd", jsGet u "locale", jsGet u "phone",
            now, (usersFindOne (userKey u) us).elim now UserDoc.createdAt⟩ := by
  constructor <;> simp [saveUser, h, usersFindOne_updateOne]

/-- Witness for C10: saving a payload without picture over a store whose
document under the same key carries a picture; the stored picture afterwards
is the absent value from the new payload. -/
theorem user_save_overwrites_all_fields_witness :
    usersFindOne (userKey sampleUserPayload)
        (saveUser sampleUserPayload 7 sampleUserStore).2 =
      some ⟨userKey sampleUserPayload, jsGet sampleUserPayload "sub",
            jsGet sampleUserPayload "email", jsGet sampleUserPayload "name",
            jsGet sampleUserPayload "picture", jsGet sampleUserPayload "emailVerified",
            jsGet sampleUserPayload "hd", jsGet sampleUserPayload "locale",
            jsGet sampleUserPayload "phone", 7,
            (usersFindOne (userKey sampleUserPayload) sampleUserStore).elim 7
              UserDoc.createdAt⟩ :=
  (user_save_overwrites_all_fields sampleUserPayload 7 sampleUserStore (by decide)).2
